import Mathlib

/-!
Shallow embedding of the password generator and strength scorer
(`generatePassword` and `calculatePasswordStrength` from
`src/components/ThreeBackground.jsx` / `passwordGenerator` utilities).

Strings are modelled as `List Char`.  JavaScript randomness
(`Math.floor(Math.random() * n)`, always a value in `[0, n)`) is modelled
by streams `Nat → Nat` reduced modulo the relevant length, so quantifying
over streams quantifies over every possible random draw.  The final
shuffle, `password.split('').sort(() => Math.random() - 0.5).join('')`,
is modelled as an arbitrary function that is assumed to return a
permutation of its input, which is exactly the guarantee ECMAScript gives
for `Array.prototype.sort` with an inconsistent comparator.
-/

/-- Membership in the regex class `[a-z]`. -/
def isLowerAZ (c : Char) : Bool := 'a' ≤ c && c ≤ 'z'

/-- Membership in the regex class `[A-Z]`. -/
def isUpperAZ (c : Char) : Bool := 'A' ≤ c && c ≤ 'Z'

/-- Membership in the regex class `\d`, i.e. `[0-9]`. -/
def isDigit09 (c : Char) : Bool := '0' ≤ c && c ≤ '9'

/-- Membership in the regex class `[a-zA-Z0-9]` used by keyword sanitization. -/
def isAlnum (c : Char) : Bool := isLowerAZ c || isUpperAZ c || isDigit09 c

/-- The characters removed by JavaScript `String.prototype.trim`
(WhiteSpace and LineTerminator code points). -/
def jsWhitespaceChars : List Char :=
  ['\t', '\n', '\x0b', '\x0c', '\r', ' ', '\u00a0', '\u1680',
   '\u2000', '\u2001', '\u2002', '\u2003', '\u2004', '\u2005', '\u2006',
   '\u2007', '\u2008', '\u2009', '\u200a', '\u2028', '\u2029', '\u202f',
   '\u205f', '\u3000', '\ufeff']

/-- Does JavaScript `trim` strip this character? -/
def isJsWhitespace (c : Char) : Bool := jsWhitespaceChars.contains c

/-- JavaScript LineTerminator code points, which the regex `.` does not match. -/
def lineTerminators : List Char := ['\n', '\r', '\u2028', '\u2029']

/-- Does the regex `.` (without the `s` flag) match this character? -/
def dotMatches (c : Char) : Bool := !(lineTerminators.contains c)

/-- Case folding of a single character; agrees with JavaScript
`toLowerCase` on the ASCII range used by the character sets. -/
def jsToLowerChar (c : Char) : Char :=
  if 'A' ≤ c && c ≤ 'Z' then Char.ofNat (c.toNat + 32) else c

/-- Case folding of a string, as `password.toLowerCase()`. -/
def jsToLower (l : List Char) : List Char := l.map jsToLowerChar

/-- The four fixed character classes. -/
structure CharacterSets where
  lowercase : List Char
  uppercase : List Char
  numbers : List Char
  symbols : List Char

/-- The constant `CHARACTER_SETS` of the source. -/
def CHARACTER_SETS : CharacterSets :=
  { lowercase := "abcdefghijklmnopqrstuvwxyz".toList
    uppercase := "ABCDEFGHIJKLMNOPQRSTUVWXYZ".toList
    numbers := "0123456789".toList
    symbols := "!@#$%^&*()_+-=[]\x7b\x7d|;:,.<>?".toList }

/-- The character class of the scorer's symbol regex
`[!@#$%^&*()_+\-=\[\]{}|;:,.<>?]` (spelled from the regex; it happens to
list the same characters as `CHARACTER_SETS.symbols`). -/
def symbolClassChars : List Char := "!@#$%^&*()_+-=[]\x7b\x7d|;:,.<>?".toList

/-- The 32 three-character windows of the scorer's sequence regex
`(abc|bcd|...|xyz|012|...|789)`. -/
def sequencePatterns : List (List Char) :=
  (["abc", "bcd", "cde", "def", "efg", "fgh", "ghi", "hij", "ijk", "jkl",
    "klm", "lmn", "mno", "nop", "opq", "pqr", "qrs", "rst", "stu", "tuv",
    "uvw", "vwx", "wxy", "xyz", "012", "123", "234", "345", "456", "567",
    "678", "789"]).map String.toList

/-- Does `pat` match at the very start of `hay`? -/
def headMatches : List Char → List Char → Bool
  | [], _ => true
  | _ :: _, [] => false
  | p :: ps, c :: cs => p == c && headMatches ps cs

/-- Substring test, as JavaScript `hay.includes(pat)`. -/
def hasSub : List Char → List Char → Bool
  | [], pat => headMatches pat []
  | c :: t, pat => headMatches pat (c :: t) || hasSub t pat

/-- The test of the regex `(.)\1{2,}`: some character that `.` matches
(so not a line terminator) occurs three or more times consecutively. -/
def hasRepeats3 : List Char → Bool
  | a :: b :: c :: rest => (dotMatches a && a == b && a == c) || hasRepeats3 (b :: c :: rest)
  | _ => false

/-- Any character (line terminators included) occurring three or more
times consecutively; the reading of the claim text, used to compare with
the source's `(.)\1{2,}` test. -/
def hasTripleRepeat : List Char → Bool
  | a :: b :: c :: rest => (a == b && a == c) || hasTripleRepeat (b :: c :: rest)
  | _ => false

/-- The options record passed to `generatePassword` (and, unused, to
`calculatePasswordStrength`). -/
structure GenOptions where
  length : Nat
  useLower : Bool
  useUpper : Bool
  useNumber : Bool
  useSymbol : Bool
  keyword : List Char

/-- JavaScript `String.prototype.trim`. -/
def trimJS (l : List Char) : List Char :=
  ((l.dropWhile isJsWhitespace).reverse.dropWhile isJsWhitespace).reverse

/-- The keyword processing block of `generatePassword`: when the keyword
is non-empty and does not trim to the empty string, trim it, strip the
characters outside `[a-zA-Z0-9]`, and truncate to `floor(length / 3)`. -/
def processedKeyword (keyword : List Char) (length : Nat) : List Char :=
  if keyword ≠ [] ∧ trimJS keyword ≠ [] then
    let p := (trimJS keyword).filter isAlnum
    let maxKeywordLength := length / 3
    if p.length > maxKeywordLength then p.take maxKeywordLength else p
  else []

/-- The `charset` string built from the enabled options. -/
def buildCharset (opts : GenOptions) : List Char :=
  (if opts.useLower then CHARACTER_SETS.lowercase else []) ++
  (if opts.useUpper then CHARACTER_SETS.uppercase else []) ++
  (if opts.useNumber then CHARACTER_SETS.numbers else []) ++
  (if opts.useSymbol then CHARACTER_SETS.symbols else [])

/-- The `selectedSets` array built from the enabled options. -/
def selectedSets (opts : GenOptions) : List (List Char) :=
  (if opts.useLower then [CHARACTER_SETS.lowercase] else []) ++
  (if opts.useUpper then [CHARACTER_SETS.uppercase] else []) ++
  (if opts.useNumber then [CHARACTER_SETS.numbers] else []) ++
  (if opts.useSymbol then [CHARACTER_SETS.symbols] else [])

/-- The seeding loop: one character from each selected set, the draw for
step `i` taken from the stream `r`. -/
def seedFrom (i : Nat) (sets : List (List Char)) (r : Nat → Nat) : List Char :=
  match sets with
  | [] => []
  | s :: rest => s.getD (r i % s.length) 'a' :: seedFrom (i + 1) rest r

/-- The padding loop `for (let i = password.length; i < length; i++)`,
drawing from `charset` with the stream `r` indexed by the loop variable. -/
def padChars (charset : List Char) (r : Nat → Nat) (start target : Nat) : List Char :=
  (List.range (target - start)).map
    (fun j => charset.getD (r (start + j) % charset.length) 'a')

/-- The character sequence built by `generatePassword` before the final
shuffle: one seeded character per selected set, then the processed
keyword, then padding from the pool up to the requested length. -/
def prePassword (opts : GenOptions) (seedR padR : Nat → Nat) : List Char :=
  let pk := processedKeyword opts.keyword opts.length
  let seeded := seedFrom 0 (selectedSets opts) seedR
  let base := seeded ++ pk
  base ++ padChars (buildCharset opts) padR base.length opts.length

/-- Embedding of `generatePassword`.  `seedR` and `padR` supply the
random draws; `shuffle` stands for the final random-comparator sort,
whose only ECMAScript guarantee is that it permutes its input. -/
def generatePassword (opts : GenOptions) (seedR padR : Nat → Nat)
    (shuffle : List Char → List Char) : Except String (List Char) :=
  let charset := buildCharset opts
  if charset = [] then
    Except.error "At least one character type must be selected"
  else
    Except.ok (shuffle (prePassword opts seedR padR))

/-- The `analysis` record of `calculatePasswordStrength`. -/
structure Analysis where
  length : Nat
  hasLower : Bool
  hasUpper : Bool
  hasNumber : Bool
  hasSymbol : Bool
  hasRepeats : Bool
  hasSequences : Bool
  hasKeyword : Bool
  keywordLength : Nat

/-- The result record of `calculatePasswordStrength`. -/
structure StrengthResult where
  score : Int
  strength : String
  emoji : String
  color : String
  analysis : Analysis

/-- Construction of the `analysis` record from the password and keyword. -/
def mkAnalysis (password keyword : List Char) : Analysis :=
  { length := password.length
    hasLower := password.any isLowerAZ
    hasUpper := password.any isUpperAZ
    hasNumber := password.any isDigit09
    hasSymbol := password.any (fun c => symbolClassChars.contains c)
    hasRepeats := hasRepeats3 password
    hasSequences := sequencePatterns.any (fun p => hasSub (jsToLower password) p)
    hasKeyword := !keyword.isEmpty && hasSub (jsToLower password) (jsToLower keyword)
    keywordLength := keyword.length }

/-- The score accumulation of `calculatePasswordStrength`, before the
final clamp, mirroring the source's sequence of conditional updates. -/
def strengthRawScore (a : Analysis) : Int :=
  let score : Int := 0
  let score := if a.length ≥ 8 then score + 5 else score
  let score := if a.length ≥ 12 then score + 5 else score
  let score := if a.length ≥ 16 then score + 5 else score
  let score := if a.length ≥ 20 then score + 5 else score
  let score := if a.hasLower then score + 2 else score
  let score := if a.hasUpper then score + 2 else score
  let score := if a.hasNumber then score + 2 else score
  let score := if a.hasSymbol then score + 3 else score
  let score := if a.hasKeyword then score + min 3 (a.keywordLength : Int) else score
  let score := if a.hasRepeats then score - 3 else score
  let score := if a.hasSequences then score - 2 else score
  let score := if a.length < 8 then score - 10 else score
  score

/-- The strength-level ladder of the source, returning
(strength, emoji, color). -/
def strengthLevel (score : Int) : String × String × String :=
  if score < 10 then ("Very Weak", "🔴", "danger")
  else if score < 20 then ("Weak", "🟠", "warning")
  else if score < 30 then ("Fair", "🟡", "warning")
  else if score < 40 then ("Good", "🟢", "success")
  else ("Strong", "🟢", "success")

/-- Embedding of `calculatePasswordStrength`.  The `options` argument is
taken (as in the source's signature) but never read by the body. -/
def calculatePasswordStrength (password : List Char) (options : GenOptions)
    (keyword : List Char) : StrengthResult :=
  let analysis := mkAnalysis password keyword
  let score := max 0 (min 50 (strengthRawScore analysis))
  let lvl := strengthLevel score
  { score := score
    strength := lvl.1
    emoji := lvl.2.1
    color := lvl.2.2
    analysis := analysis }

/-- Score formula of claim C2 read literally: clamp to `[0, 50]` of the
stated sum, with the repeat penalty triggered by any character repeated
three or more times consecutively (line terminators included). -/
def claimScoreC2 (password keyword : List Char) : Int :=
  max 0 (min 50 (
    (if password.length ≥ 8 then (5 : Int) else 0) +
    (if password.length ≥ 12 then 5 else 0) +
    (if password.length ≥ 16 then 5 else 0) +
    (if password.length ≥ 20 then 5 else 0) +
    (if password.any isLowerAZ then 2 else 0) +
    (if password.any isUpperAZ then 2 else 0) +
    (if password.any isDigit09 then 2 else 0) +
    (if password.any (fun c => symbolClassChars.contains c) then 3 else 0) +
    (if hasSub (jsToLower password) (jsToLower keyword) then
        min 3 (keyword.length : Int) else 0) -
    (if hasTripleRepeat password then 3 else 0) -
    (if sequencePatterns.any (fun p => hasSub (jsToLower password) p) then 2 else 0) -
    (if password.length < 8 then 10 else 0)))

/-- Score formula of claim C2 amended to the source's repeat test: the
repeated character must be one the regex `.` matches, so line
terminators repeated three times do not trigger the penalty. -/
def amendedScoreC2 (password keyword : List Char) : Int :=
  max 0 (min 50 (
    (if password.length ≥ 8 then (5 : Int) else 0) +
    (if password.length ≥ 12 then 5 else 0) +
    (if password.length ≥ 16 then 5 else 0) +
    (if password.length ≥ 20 then 5 else 0) +
    (if password.any isLowerAZ then 2 else 0) +
    (if password.any isUpperAZ then 2 else 0) +
    (if password.any isDigit09 then 2 else 0) +
    (if password.any (fun c => symbolClassChars.contains c) then 3 else 0) +
    (if hasSub (jsToLower password) (jsToLower keyword) then
        min 3 (keyword.length : Int) else 0) -
    (if hasRepeats3 password then 3 else 0) -
    (if sequencePatterns.any (fun p => hasSub (jsToLower password) p) then 2 else 0) -
    (if password.length < 8 then 10 else 0)))

/-- A concrete request: length 4, lowercase only, no keyword. -/
def optsLowerOnly : GenOptions :=
  { length := 4, useLower := true, useUpper := false, useNumber := false,
    useSymbol := false, keyword := [] }

/-- A concrete request: length 1, all four classes enabled, no keyword. -/
def optsAllShort : GenOptions :=
  { length := 1, useLower := true, useUpper := true, useNumber := true,
    useSymbol := true, keyword := [] }

/-- A concrete request with no class enabled. -/
def optsNone : GenOptions :=
  { length := 5, useLower := false, useUpper := false, useNumber := false,
    useSymbol := false, keyword := [] }

lemma ite_add_shift (c : Prop) [Decidable c] (s k : Int) :
    (if c then s + k else s) = s + (if c then k else 0) := by
  split <;> simp

lemma ite_sub_shift (c : Prop) [Decidable c] (s k : Int) :
    (if c then s - k else s) = s - (if c then k else 0) := by
  split <;> simp

lemma hasSub_nil_pat (hay : List Char) : hasSub hay [] = true := by
  cases hay <;> simp [hasSub, headMatches]

/-- C2 (amended): for every password and keyword, the score returned by
`calculatePasswordStrength` equals the clamp to [0,50] of the stated sum
of bonuses and penalties, with the repeat penalty applying only when the
thrice-repeated character is one the detection regex's dot matches,
i.e. not a line terminator. -/
theorem calculatePasswordStrength_score_formula (password keyword : List Char)
    (options : GenOptions) :
    (calculatePasswordStrength password options keyword).score =
      amendedScoreC2 password keyword := by
  cases keyword with
  | nil =>
      dsimp only [calculatePasswordStrength, mkAnalysis, strengthRawScore, amendedScoreC2]
      simp only [List.isEmpty_nil, Bool.not_true, Bool.false_and, jsToLower, List.map_nil,
        hasSub_nil_pat, List.length_nil, ite_add_shift, ite_sub_shift, Bool.false_eq_true,
        if_false, if_true, Nat.cast_zero, zero_add, add_zero]
      norm_num
  | cons k ks =>
      dsimp only [calculatePasswordStrength, mkAnalysis, strengthRawScore, amendedScoreC2]
      simp only [List.isEmpty_cons, Bool.not_false, Bool.true_and, jsToLower,
        ite_add_shift, ite_sub_shift, zero_add, add_zero]

/-- C2 (counterexample): on the password `"aA1!\n\n\nx"` with empty
keyword, the source scores 14, while the claim's formula — whose repeat
penalty counts any thrice-repeated character, including `"\n\n\n"` —
gives 11, so the claim read literally does not hold of the code. -/
theorem calculatePasswordStrength_claim_formula_cex :
    (calculatePasswordStrength ['a', 'A', '1', '!', '\n', '\n', '\n', 'x']
        optsLowerOnly []).score = 14 ∧
    claimScoreC2 ['a', 'A', '1', '!', '\n', '\n', '\n', 'x'] [] = 11 ∧
    ¬ ((calculatePasswordStrength ['a', 'A', '1', '!', '\n', '\n', '\n', 'x']
        optsLowerOnly []).score =
       claimScoreC2 ['a', 'A', '1', '!', '\n', '\n', '\n', 'x'] []) := by
  refine ⟨by decide, by decide, by decide⟩

/-- C6: for every input the score lies in [0,50], and the strength label
is determined by half-open tiers on the clamped score: below 10 Very
Weak, 10 to 19 Weak, 20 to 29 Fair, 30 to 39 Good, 40 and above Strong. -/
theorem calculatePasswordStrength_bounds_and_label (password keyword : List Char)
    (options : GenOptions) :
    0 ≤ (calculatePasswordStrength password options keyword).score ∧
    (calculatePasswordStrength password options keyword).score ≤ 50 ∧
    ((calculatePasswordStrength password options keyword).score < 10 →
      (calculatePasswordStrength password options keyword).strength = "Very Weak") ∧
    (10 ≤ (calculatePasswordStrength password options keyword).score ∧
      (calculatePasswordStrength password options keyword).score < 20 →
      (calculatePasswordStrength password options keyword).strength = "Weak") ∧
    (20 ≤ (calculatePasswordStrength password options keyword).score ∧
      (calculatePasswordStrength password options keyword).score < 30 →
      (calculatePasswordStrength password options keyword).strength = "Fair") ∧
    (30 ≤ (calculatePasswordStrength password options keyword).score ∧
      (calculatePasswordStrength password options keyword).score < 40 →
      (calculatePasswordStrength password options keyword).strength = "Good") ∧
    (40 ≤ (calculatePasswordStrength password options keyword).score →
      (calculatePasswordStrength password options keyword).strength = "Strong") := by
  dsimp only [calculatePasswordStrength]
  generalize strengthRawScore (mkAnalysis password keyword) = x
  refine ⟨by omega, by omega, ?_, ?_, ?_, ?_, ?_⟩ <;>
    · intro h
      unfold strengthLevel
      repeat' split
      all_goals first | rfl | omega

/-- C6 (witness): the empty password under the lowercase-only request
scores 0 and is labelled Very Weak. -/
theorem calculatePasswordStrength_bounds_and_label_instance :
    (calculatePasswordStrength [] optsLowerOnly []).strength = "Very Weak" ∧
    0 ≤ (calculatePasswordStrength [] optsLowerOnly []).score :=
  ⟨(calculatePasswordStrength_bounds_and_label [] [] optsLowerOnly).2.2.1 (by decide),
   (calculatePasswordStrength_bounds_and_label [] [] optsLowerOnly).1⟩

/-- C9: the strength report is a pure function of the password and the
keyword alone; any two calls agreeing on those return identical reports
(score, label and analysis flags) regardless of the options record,
i.e. regardless of which character classes were requested as enabled. -/
theorem calculatePasswordStrength_options_independent
    (password keyword : List Char) (o1 o2 : GenOptions) :
    calculatePasswordStrength password o1 keyword =
      calculatePasswordStrength password o2 keyword := rfl

/-- C10: the scorer works from the raw keyword: the reported
keywordLength is the raw keyword's length (whitespace and punctuation
included) and the containment test folds and compares the raw keyword,
so the bonus min(3, keywordLength) is computed from the unsanitized
keyword.  Concretely, keyword " a" against password "xa" earns no
keyword flag even though its sanitized form "a" does occur. -/
theorem calculatePasswordStrength_uses_raw_keyword :
    (∀ (password keyword : List Char) (options : GenOptions),
      (calculatePasswordStrength password options keyword).analysis.keywordLength =
        keyword.length) ∧
    (∀ (password keyword : List Char) (options : GenOptions),
      (calculatePasswordStrength password options keyword).analysis.hasKeyword =
        (!keyword.isEmpty && hasSub (jsToLower password) (jsToLower keyword))) ∧
    (calculatePasswordStrength ['x', 'a'] optsLowerOnly [' ', 'a']).analysis.hasKeyword
      = false ∧
    ([' ', 'a'] : List Char).length = 2 ∧
    processedKeyword [' ', 'a'] 9 = ['a'] ∧
    hasSub (jsToLower ['x', 'a']) (processedKeyword [' ', 'a'] 9) = true :=
  ⟨fun _ _ _ => rfl, fun _ _ _ => rfl, by decide, rfl, by decide, by decide⟩

lemma ws_not_alnum (c : Char) (h : isJsWhitespace c = true) : isAlnum c = false := by
  rw [isJsWhitespace, List.elem_iff] at h
  simp only [jsWhitespaceChars, List.mem_cons, List.not_mem_nil, or_false] at h
  rcases h with rfl | rfl | rfl | rfl | rfl | rfl | rfl | rfl | rfl | rfl | rfl | rfl |
    rfl | rfl | rfl | rfl | rfl | rfl | rfl | rfl | rfl | rfl | rfl | rfl | rfl
  all_goals decide

lemma filter_dropWhile_ws (l : List Char) :
    (l.dropWhile isJsWhitespace).filter isAlnum = l.filter isAlnum := by
  induction l with
  | nil => rfl
  | cons c t ih =>
      by_cases h : isJsWhitespace c = true
      · rw [List.dropWhile_cons, if_pos h, ih, List.filter_cons, if_neg (by
          simp [ws_not_alnum c h])]
      · rw [List.dropWhile_cons, if_neg h]

lemma filter_trimJS (l : List Char) :
    (trimJS l).filter isAlnum = l.filter isAlnum := by
  unfold trimJS
  rw [List.filter_reverse, filter_dropWhile_ws, List.filter_reverse,
    List.reverse_reverse, filter_dropWhile_ws]

lemma processedKeyword_take (keyword : List Char) (length : Nat) :
    processedKeyword keyword length = (keyword.filter isAlnum).take (length / 3) := by
  rw [processedKeyword]
  split
  · simp only [filter_trimJS]
    split
    · rfl
    · rw [List.take_of_length_le (by omega)]
  · rename_i h
    have hnil : keyword.filter isAlnum = [] := by
      rcases not_and_or.mp h with h1 | h2
      · rw [not_not.mp h1]; rfl
      · rw [← filter_trimJS keyword, not_not.mp h2]; rfl
    rw [hnil, List.take_nil]

/-- C5: the processed keyword is the raw keyword with all characters
outside `[a-zA-Z0-9]` removed and truncated to `floor(length / 3)`
characters; it is empty for an empty or whitespace-only raw keyword, and
keyword "ab!@12cd" with length 9 processes to "ab1". -/
theorem processedKeyword_spec :
    (∀ (keyword : List Char) (length : Nat),
      processedKeyword keyword length = (keyword.filter isAlnum).take (length / 3)) ∧
    processedKeyword "ab!@12cd".toList 9 = "ab1".toList ∧
    (∀ (keyword : List Char) (length : Nat),
      (∀ c ∈ keyword, isJsWhitespace c = true) →
        processedKeyword keyword length = []) := by
  refine ⟨processedKeyword_take, by decide, ?_⟩
  intro keyword length h
  rw [processedKeyword_take, List.filter_eq_nil_iff.mpr, List.take_nil]
  intro c hc
  simp [ws_not_alnum c (h c hc)]

/-- C5 (witness): a whitespace-only keyword processes to the empty
keyword. -/
theorem processedKeyword_spec_instance : processedKeyword [' '] 6 = [] :=
  processedKeyword_spec.2.2 [' '] 6 (by decide)

lemma getD_mod_mem (l : List Char) (h : l ≠ []) (n : Nat) (d : Char) :
    l.getD (n % l.length) d ∈ l := by
  have hl : 0 < l.length := List.length_pos.mpr h
  have hm : n % l.length < l.length := Nat.mod_lt _ hl
  rw [List.getD_eq_getElem l d hm]
  exact List.getElem_mem hm

lemma seedFrom_length (sets : List (List Char)) (i : Nat) (r : Nat → Nat) :
    (seedFrom i sets r).length = sets.length := by
  induction sets generalizing i with
  | nil => rfl
  | cons s rest ih => simp [seedFrom, ih]

lemma seedFrom_mem (sets : List (List Char)) (i : Nat) (r : Nat → Nat)
    (hne : ∀ s ∈ sets, s ≠ []) (c : Char) (hc : c ∈ seedFrom i sets r) :
    ∃ s ∈ sets, c ∈ s := by
  induction sets generalizing i with
  | nil => cases hc
  | cons s rest ih =>
      rcases List.mem_cons.mp hc with h | h
      · exact ⟨s, List.mem_cons_self s rest,
          h ▸ getD_mod_mem s (hne s (List.mem_cons_self s rest)) _ 'a'⟩
      · obtain ⟨t, ht, hct⟩ := ih (i + 1) (fun t ht => hne t (List.mem_cons_of_mem s ht)) h
        exact ⟨t, List.mem_cons_of_mem s ht, hct⟩

lemma seedFrom_exists_rep (sets : List (List Char)) (s : List Char)
    (hs : s ∈ sets) (hne : s ≠ []) (i : Nat) (r : Nat → Nat) :
    ∃ c ∈ seedFrom i sets r, c ∈ s := by
  induction sets generalizing i with
  | nil => cases hs
  | cons t rest ih =>
      rcases List.mem_cons.mp hs with rfl | h
      · exact ⟨s.getD (r i % s.length) 'a', List.mem_cons_self _ _,
          getD_mod_mem s hne _ 'a'⟩
      · obtain ⟨c, hc, hcs⟩ := ih h (i + 1)
        exact ⟨c, List.mem_cons_of_mem _ hc, hcs⟩

lemma selectedSets_sub (opts : GenOptions) (s : List Char)
    (hs : s ∈ selectedSets opts) (c : Char) (hc : c ∈ s) :
    c ∈ buildCharset opts := by
  rcases opts with ⟨l, ul, uu, un, us, kw⟩
  cases ul <;> cases uu <;> cases un <;> cases us <;>
    simp_all [selectedSets, buildCharset] <;>
    rcases hs with rfl | rfl | rfl | rfl <;> simp_all

lemma selectedSets_ne_nil (opts : GenOptions) (s : List Char)
    (hs : s ∈ selectedSets opts) : s ≠ [] := by
  rcases opts with ⟨l, ul, uu, un, us, kw⟩
  cases ul <;> cases uu <;> cases un <;> cases us <;>
    simp_all [selectedSets, CHARACTER_SETS] <;>
    rcases hs with rfl | rfl | rfl | rfl <;> simp_all

lemma padChars_length (charset : List Char) (r : Nat → Nat) (start target : Nat) :
    (padChars charset r start target).length = target - start := by
  simp [padChars]

lemma padChars_mem (charset : List Char) (hne : charset ≠ []) (r : Nat → Nat)
    (start target : Nat) (c : Char) (hc : c ∈ padChars charset r start target) :
    c ∈ charset := by
  obtain ⟨j, _, hj⟩ := List.mem_map.mp hc
  exact hj ▸ getD_mod_mem charset hne _ 'a'

lemma generatePassword_ok_inv (opts : GenOptions) (seedR padR : Nat → Nat)
    (shuffle : List Char → List Char) (pw : List Char)
    (h : generatePassword opts seedR padR shuffle = Except.ok pw) :
    buildCharset opts ≠ [] ∧ pw = shuffle (prePassword opts seedR padR) := by
  simp only [generatePassword] at h
  split at h
  · cases h
  · rename_i hne
    injection h with h
    exact ⟨hne, h.symm⟩

lemma buildCharset_eq_nil_iff (opts : GenOptions) :
    buildCharset opts = [] ↔
      (opts.useLower = false ∧ opts.useUpper = false ∧ opts.useNumber = false ∧
        opts.useSymbol = false) := by
  rcases opts with ⟨l, ul, uu, un, us, kw⟩
  cases ul <;> cases uu <;> cases un <;> cases us <;>
    simp [buildCharset, CHARACTER_SETS]

/-- C1: for every request with at least one enabled class and length at
least 1, and every randomness draw and shuffle permutation, the password
returned by `generatePassword` contains at least one character from each
enabled class. -/
theorem generatePassword_includes_each_enabled_class
    (opts : GenOptions) (seedR padR : Nat → Nat) (shuffle : List Char → List Char)
    (hsh : ∀ l, List.Perm (shuffle l) l) (hlen : 1 ≤ opts.length)
    (pw : List Char) (h : generatePassword opts seedR padR shuffle = Except.ok pw) :
    (opts.useLower = true → ∃ c ∈ pw, c ∈ CHARACTER_SETS.lowercase) ∧
    (opts.useUpper = true → ∃ c ∈ pw, c ∈ CHARACTER_SETS.uppercase) ∧
    (opts.useNumber = true → ∃ c ∈ pw, c ∈ CHARACTER_SETS.numbers) ∧
    (opts.useSymbol = true → ∃ c ∈ pw, c ∈ CHARACTER_SETS.symbols) := by
  obtain ⟨hcs, rfl⟩ := generatePassword_ok_inv opts seedR padR shuffle pw h
  have hrep : ∀ s ∈ selectedSets opts, ∃ c ∈ shuffle (prePassword opts seedR padR), c ∈ s := by
    intro s hs
    obtain ⟨c, hcseed, hcs2⟩ :=
      seedFrom_exists_rep (selectedSets opts) s hs (selectedSets_ne_nil opts s hs) 0 seedR
    refine ⟨c, ?_, hcs2⟩
    rw [(hsh (prePassword opts seedR padR)).mem_iff]
    unfold prePassword
    exact List.mem_append_left _ (List.mem_append_left _ hcseed)
  exact ⟨fun hf => hrep _ (by simp [selectedSets, hf]),
    fun hf => hrep _ (by simp [selectedSets, hf]),
    fun hf => hrep _ (by simp [selectedSets, hf]),
    fun hf => hrep _ (by simp [selectedSets, hf])⟩

/-- C1 (witness): the lowercase-only request of length 4 under the
all-zero draws and the identity shuffle yields "aaaa", which contains a
lowercase character. -/
theorem generatePassword_includes_each_enabled_class_instance :
    generatePassword optsLowerOnly (fun _ => 0) (fun _ => 0) (fun l => l) =
      Except.ok ['a', 'a', 'a', 'a'] ∧
    (∃ c ∈ (['a', 'a', 'a', 'a'] : List Char), c ∈ CHARACTER_SETS.lowercase) :=
  ⟨by rfl,
   (generatePassword_includes_each_enabled_class optsLowerOnly (fun _ => 0) (fun _ => 0)
      (fun l => l) (fun l => List.Perm.refl l) (by decide) ['a', 'a', 'a', 'a']
      (by rfl)).1 rfl⟩

/-- C3 (amended): the password's length is the maximum of the requested
length and the seeded-plus-keyword length, hence always at least the
requested length, and equals it exactly if and only if the number of
enabled classes plus the processed keyword's length fits within the
requested length. -/
theorem generatePassword_length_spec
    (opts : GenOptions) (seedR padR : Nat → Nat) (shuffle : List Char → List Char)
    (hsh : ∀ l, List.Perm (shuffle l) l)
    (pw : List Char) (h : generatePassword opts seedR padR shuffle = Except.ok pw) :
    opts.length ≤ pw.length ∧
    pw.length = max opts.length
      ((selectedSets opts).length +
        (processedKeyword opts.keyword opts.length).length) ∧
    (pw.length = opts.length ↔
      (selectedSets opts).length +
          (processedKeyword opts.keyword opts.length).length ≤ opts.length) := by
  obtain ⟨hcs, rfl⟩ := generatePassword_ok_inv opts seedR padR shuffle pw h
  rw [(hsh (prePassword opts seedR padR)).length_eq]
  unfold prePassword
  simp only [List.length_append, seedFrom_length, padChars_length]
  omega

/-- C3 (counterexample): for the request of length 1 with all four
classes enabled and an empty keyword, the seeded characters alone give a
password of length 4, so the password's length is not the requested
length even though the keyword is empty. -/
theorem generatePassword_length_claim_cex :
    generatePassword optsAllShort (fun _ => 0) (fun _ => 0) (fun l => l) =
      Except.ok ['a', 'A', '0', '!'] ∧
    optsAllShort.keyword = [] ∧ 1 ≤ optsAllShort.length ∧
    ¬ ((['a', 'A', '0', '!'] : List Char).length = optsAllShort.length) := by
  refine ⟨by rfl, rfl, by decide, by decide⟩

/-- C3 (witness): for the lowercase-only request of length 4 the
password has length exactly 4, which is the requested length since one
seeded character plus the empty keyword fits within it. -/
theorem generatePassword_length_spec_instance :
    optsLowerOnly.length ≤ (['a', 'a', 'a', 'a'] : List Char).length ∧
    (['a', 'a', 'a', 'a'] : List Char).length = max optsLowerOnly.length
      ((selectedSets optsLowerOnly).length +
        (processedKeyword optsLowerOnly.keyword optsLowerOnly.length).length) ∧
    ((['a', 'a', 'a', 'a'] : List Char).length = optsLowerOnly.length ↔
      (selectedSets optsLowerOnly).length +
          (processedKeyword optsLowerOnly.keyword optsLowerOnly.length).length ≤
        optsLowerOnly.length) :=
  generatePassword_length_spec optsLowerOnly (fun _ => 0) (fun _ => 0) (fun l => l)
    (fun l => List.Perm.refl l) ['a', 'a', 'a', 'a'] (by rfl)

/-- C4: every character of the returned password lies in the union of
the enabled classes' character sets (the pool) or among the characters
of the processed keyword. -/
theorem generatePassword_chars_from_pool
    (opts : GenOptions) (seedR padR : Nat → Nat) (shuffle : List Char → List Char)
    (hsh : ∀ l, List.Perm (shuffle l) l)
    (pw : List Char) (h : generatePassword opts seedR padR shuffle = Except.ok pw)
    (c : Char) (hc : c ∈ pw) :
    c ∈ buildCharset opts ∨ c ∈ processedKeyword opts.keyword opts.length := by
  obtain ⟨hcs, rfl⟩ := generatePassword_ok_inv opts seedR padR shuffle pw h
  rw [(hsh (prePassword opts seedR padR)).mem_iff] at hc
  unfold prePassword at hc
  rcases List.mem_append.mp hc with h1 | h2
  · rcases List.mem_append.mp h1 with h3 | h4
    · obtain ⟨s, hs, hcs2⟩ := seedFrom_mem (selectedSets opts) 0 seedR
        (fun s hs => selectedSets_ne_nil opts s hs) c h3
      exact Or.inl (selectedSets_sub opts s hs c hcs2)
    · exact Or.inr h4
  · exact Or.inl (padChars_mem (buildCharset opts) hcs padR _ _ c h2)

/-- C4 (witness): the character 'a' of the concrete password "aaaa"
belongs to the lowercase-only pool. -/
theorem generatePassword_chars_from_pool_instance :
    'a' ∈ buildCharset optsLowerOnly ∨
      'a' ∈ processedKeyword optsLowerOnly.keyword optsLowerOnly.length :=
  generatePassword_chars_from_pool optsLowerOnly (fun _ => 0) (fun _ => 0) (fun l => l)
    (fun l => List.Perm.refl l) ['a', 'a', 'a', 'a'] (by rfl) 'a' (by decide)

/-- C7: the generator fails, with the source's error message, exactly
when no character class is enabled; with at least one class enabled it
returns a password; and the scorer has no error path: it yields a score
within bounds for every string, the empty string included. -/
theorem generatePassword_error_iff (opts : GenOptions) (seedR padR : Nat → Nat)
    (shuffle : List Char → List Char) :
    ((opts.useLower = false ∧ opts.useUpper = false ∧ opts.useNumber = false ∧
        opts.useSymbol = false) →
      generatePassword opts seedR padR shuffle =
        Except.error "At least one character type must be selected") ∧
    ((opts.useLower = true ∨ opts.useUpper = true ∨ opts.useNumber = true ∨
        opts.useSymbol = true) →
      ∃ pw, generatePassword opts seedR padR shuffle = Except.ok pw) ∧
    (∀ e, generatePassword opts seedR padR shuffle = Except.error e →
      opts.useLower = false ∧ opts.useUpper = false ∧ opts.useNumber = false ∧
        opts.useSymbol = false) ∧
    (∀ password keyword : List Char,
      0 ≤ (calculatePasswordStrength password opts keyword).score ∧
      (calculatePasswordStrength password opts keyword).score ≤ 50) := by
  refine ⟨?_, ?_, ?_, ?_⟩
  · intro hf
    simp only [generatePassword]
    rw [if_pos ((buildCharset_eq_nil_iff opts).mpr hf)]
  · intro hor
    have hne : ¬ buildCharset opts = [] := by
      intro hh
      have hf := (buildCharset_eq_nil_iff opts).mp hh
      rcases hor with h | h | h | h <;> simp_all
    simp only [generatePassword]
    rw [if_neg hne]
    exact ⟨_, rfl⟩
  · intro e he
    by_cases hb : buildCharset opts = []
    · exact (buildCharset_eq_nil_iff opts).mp hb
    · simp only [generatePassword] at he
      rw [if_neg hb] at he
      cases he
  · intro password keyword
    dsimp only [calculatePasswordStrength]
    constructor <;> omega

/-- C7 (witness): with no class enabled the generator returns the
source's configuration error. -/
theorem generatePassword_error_iff_instance :
    generatePassword optsNone (fun _ => 0) (fun _ => 0) (fun l => l) =
      Except.error "At least one character type must be selected" :=
  (generatePassword_error_iff optsNone (fun _ => 0) (fun _ => 0) (fun l => l)).1
    ⟨rfl, rfl, rfl, rfl⟩
